import Mathlib

/-!
Verification development for the SystemMonitorTool repository
(`src/system_monitor.cpp`), a small top-like terminal process monitor.

The C++ source is shallowly embedded below:
* machine `unsigned long long` values are modeled as `Nat`, with the
  64-bit wrap-around of arithmetic made explicit through `sub64`
  (subtraction modulo `2 ^ 64`) at the program points where the source
  subtracts unsigned counters;
* `double` arithmetic on exact integer inputs is modeled by `ℚ`;
* file contents are modeled as the character lists / strings the
  source reads, and `std::istream` tokenization is modeled by
  whitespace splitting.
-/

/-- The modulus of C `unsigned long long` arithmetic (64-bit). -/
def U64 : Nat := 2 ^ 64

/-- C unsigned 64-bit subtraction `a - b` (wraps modulo `2 ^ 64`). -/
def sub64 (a b : Nat) : Nat := (U64 + a % U64 - b % U64) % U64

/-- The ten cumulative counters of the first `cpu` line of `/proc/stat`,
as in `struct CpuSnapshot` of the source.  Counters are modeled as
unbounded naturals; theorems about ticks carry the bound `total < U64`
under which the source's `unsigned long long` sums do not wrap. -/
structure CpuSnapshot where
  user : Nat
  nice : Nat
  system : Nat
  idle : Nat
  iowait : Nat
  irq : Nat
  softirq : Nat
  steal : Nat
  guest : Nat
  guest_nice : Nat
deriving DecidableEq, Repr

/-- `CpuSnapshot::total()` of the source: sum of all ten counters. -/
def CpuSnapshot.total (s : CpuSnapshot) : Nat :=
  s.user + s.nice + s.system + s.idle + s.iowait + s.irq + s.softirq +
    s.steal + s.guest + s.guest_nice

/-- `CpuSnapshot::idleAll()` of the source: `idle + iowait`. -/
def CpuSnapshot.idleAll (s : CpuSnapshot) : Nat := s.idle + s.iowait

/-- Componentwise monotonicity of the ten counters between two snapshots. -/
def CpuLe (p c : CpuSnapshot) : Prop :=
  p.user ≤ c.user ∧ p.nice ≤ c.nice ∧ p.system ≤ c.system ∧
    p.idle ≤ c.idle ∧ p.iowait ≤ c.iowait ∧ p.irq ≤ c.irq ∧
    p.softirq ≤ c.softirq ∧ p.steal ≤ c.steal ∧ p.guest ≤ c.guest ∧
    p.guest_nice ≤ c.guest_nice

instance (p c : CpuSnapshot) : Decidable (CpuLe p c) := by
  unfold CpuLe; infer_instance

/-- The system CPU percentage computed by one tick of `main`
(lines 222-228 of the source):
`tot_diff` and `idle_diff` are unsigned 64-bit differences of the
snapshot totals, `cpu_usage` starts at `0.0` and is set to
`100.0 * (tot_diff - idle_diff) / tot_diff` when `tot_diff > 0`,
where `tot_diff - idle_diff` is again a `uint64` subtraction. -/
def systemCpuPercent (prev cur : CpuSnapshot) : ℚ :=
  let totDiff := sub64 cur.total prev.total
  let idleDiff := sub64 cur.idleAll prev.idleAll
  if 0 < totDiff then
    (100 : ℚ) * ((sub64 totDiff idleDiff : Nat) : ℚ) / ((totDiff : Nat) : ℚ)
  else 0

theorem sub64_eq_sub {a b : Nat} (hba : b ≤ a) (ha : a < U64) :
    sub64 a b = a - b := by
  have hb : b < U64 := lt_of_le_of_lt hba ha
  unfold sub64 U64 at *
  omega

theorem rat_pct_nonneg (t d : Nat) :
    0 ≤ (100 : ℚ) * ((t - d : Nat) : ℚ) / ((t : Nat) : ℚ) := by
  positivity

theorem rat_pct_le_100 (t d : Nat) (ht : 0 < t) :
    (100 : ℚ) * ((t - d : Nat) : ℚ) / ((t : Nat) : ℚ) ≤ 100 := by
  have htq : (0 : ℚ) < (t : ℚ) := by exact_mod_cast ht
  rw [div_le_iff₀ htq]
  have hsub : ((t - d : Nat) : ℚ) ≤ (t : ℚ) := by
    exact_mod_cast Nat.sub_le t d
  nlinarith

/-- C1: whenever every counter of the current CPU snapshot is at least
the corresponding counter of the previous one (and totals fit in 64
bits, as the hardware counters do), the tick computes a system CPU
percentage of `0` when `tot_diff = 0`, of
`100 * (tot_diff - idle_diff) / tot_diff` when `tot_diff > 0`, and the
result always lies between `0` and `100`. -/
theorem systemCpu_formula_bounds (p c : CpuSnapshot) (hle : CpuLe p c)
    (hb : c.total < U64) :
    (c.total - p.total = 0 → systemCpuPercent p c = 0) ∧
    (0 < c.total - p.total →
      systemCpuPercent p c =
        100 * (((c.total - p.total) - (c.idleAll - p.idleAll) : Nat) : ℚ) /
          ((c.total - p.total : Nat) : ℚ)) ∧
    0 ≤ systemCpuPercent p c ∧ systemCpuPercent p c ≤ 100 := by
  obtain ⟨h1, h2, h3, h4, h5, h6, h7, h8, h9, h10⟩ := hle
  have htot : p.total ≤ c.total := by
    unfold CpuSnapshot.total; omega
  have hidle : p.idleAll ≤ c.idleAll := by
    unfold CpuSnapshot.idleAll; omega
  have hdiffle : c.idleAll - p.idleAll ≤ c.total - p.total := by
    unfold CpuSnapshot.total CpuSnapshot.idleAll at *; omega
  have hib : c.idleAll < U64 := by
    unfold CpuSnapshot.total CpuSnapshot.idleAll at *; omega
  have e1 : sub64 c.total p.total = c.total - p.total := sub64_eq_sub htot hb
  have e2 : sub64 c.idleAll p.idleAll = c.idleAll - p.idleAll :=
    sub64_eq_sub hidle hib
  have htd : c.total - p.total < U64 := by omega
  have e3 : sub64 (c.total - p.total) (c.idleAll - p.idleAll) =
      (c.total - p.total) - (c.idleAll - p.idleAll) :=
    sub64_eq_sub hdiffle htd
  unfold systemCpuPercent
  simp only [e1, e2, e3]
  refine ⟨fun hz => by simp [hz], fun hpos => by simp [hpos], ?_, ?_⟩
  · by_cases hpos : 0 < c.total - p.total
    · simp only [hpos, if_true]
      exact rat_pct_nonneg _ _
    · simp [hpos]
  · by_cases hpos : 0 < c.total - p.total
    · simp only [hpos, if_true]
      exact rat_pct_le_100 _ _ hpos
    · simp [hpos]

/-- Scenario A previous snapshot: `cpu  100 0 0 900 0 0 0 0 0 0`. -/
def snapPrevA : CpuSnapshot :=
  { user := 100, nice := 0, system := 0, idle := 900, iowait := 0,
    irq := 0, softirq := 0, steal := 0, guest := 0, guest_nice := 0 }

/-- Scenario A current snapshot: `cpu  200 0 0 1800 0 0 0 0 0 0`. -/
def snapCurA : CpuSnapshot :=
  { user := 200, nice := 0, system := 0, idle := 1800, iowait := 0,
    irq := 0, softirq := 0, steal := 0, guest := 0, guest_nice := 0 }

/-- C1 witness: the bounds instantiated on the spec's scenario A
snapshots. -/
theorem systemCpu_formula_bounds_witness :
    0 ≤ systemCpuPercent snapPrevA snapCurA ∧
      systemCpuPercent snapPrevA snapCurA ≤ 100 :=
  ⟨(systemCpu_formula_bounds snapPrevA snapCurA (by decide)
      (by decide)).2.2.1,
    (systemCpu_formula_bounds snapPrevA snapCurA (by decide)
      (by decide)).2.2.2⟩

/-- One sampled process, as in `struct ProcSnapshot` of the source.
`pid_t` is modeled as `Nat` (the pids scanned from `/proc` are the
decimal directory names), `unsigned long long` jiffy counters and the
`unsigned long` RSS as `Nat`, and the `double` percentages as `ℚ`. -/
structure ProcSnapshot where
  pid : Nat
  user : String
  cmd : List Char
  utime : Nat
  stime : Nat
  rss : Nat
  cpu_percent : ℚ
  mem_percent : ℚ
deriving DecidableEq, Repr

/-- `ProcSnapshot::total_time()` of the source: `utime + stime`. -/
def ProcSnapshot.total_time (p : ProcSnapshot) : Nat := p.utime + p.stime

/-- The per-process CPU percentage computed inside the tick loop of
`main` (lines 256-271): `cpu_pct` starts at `0.0`; when the pid is in
the previous mapping, `proc_time_diff` is the clamped difference of the
`utime+stime` totals and, when `tot_diff > 0`,
`cpu_pct = 100.0 * proc_time_diff / tot_diff`. -/
def computeCpuPct (prevMap : List ProcSnapshot) (totDiff : Nat)
    (cur : ProcSnapshot) : ℚ :=
  match prevMap.find? (fun q => q.pid == cur.pid) with
  | none => 0
  | some prevP =>
    let procDiff : Nat :=
      if prevP.total_time ≤ cur.total_time then
        cur.total_time - prevP.total_time
      else 0
    if 0 < totDiff then 100 * (procDiff : ℚ) / (totDiff : ℚ) else 0

/-- The derivation step of the tick loop: each sampled raw snapshot is
given its `cpu_percent` and, when `mem_total > 0`, its
`mem_percent = 100.0 * rss / mem_total` (lines 256-277). -/
def deriveRows (prevMap : List ProcSnapshot) (totDiff memTotal : Nat)
    (cur : List ProcSnapshot) : List ProcSnapshot :=
  cur.map (fun c =>
    { c with
      cpu_percent := computeCpuPct prevMap totDiff c
      mem_percent :=
        if 0 < memTotal then 100 * (c.rss : ℚ) / (memTotal : ℚ) else 0 })

/-- `prev_procs[p.pid] = p` on the model of `unordered_map` as an
association list: an existing entry with the same key is overwritten. -/
def mapInsert (m : List ProcSnapshot) (p : ProcSnapshot) :
    List ProcSnapshot :=
  p :: m.filter (fun q => q.pid != p.pid)

/-- Lines 279-281 of the source: `prev_procs.clear()` followed by
`prev_procs[p.pid] = p` for every element of `procs`, so the new
previous mapping is built from the current sample alone. -/
def updatePrevMap (procs : List ProcSnapshot) : List ProcSnapshot :=
  procs.foldl mapInsert []

theorem exists_pid_mapInsert (acc : List ProcSnapshot) (p : ProcSnapshot)
    (x : Nat) :
    (∃ q ∈ mapInsert acc p, q.pid = x) ↔
      p.pid = x ∨ ∃ q ∈ acc, q.pid = x := by
  simp only [mapInsert, List.mem_cons, List.mem_filter]
  constructor
  · rintro ⟨q, hq | ⟨hqa, hne⟩, hx⟩
    · subst hq; exact Or.inl hx
    · exact Or.inr ⟨q, hqa, hx⟩
  · rintro (hpx | ⟨q, hqa, hx⟩)
    · exact ⟨p, Or.inl rfl, hpx⟩
    · by_cases h : q.pid = p.pid
      · exact ⟨p, Or.inl rfl, h ▸ hx⟩
      · exact ⟨q, Or.inr ⟨hqa, by simp [h]⟩, hx⟩

theorem exists_pid_foldl_mapInsert (procs acc : List ProcSnapshot)
    (x : Nat) :
    (∃ q ∈ procs.foldl mapInsert acc, q.pid = x) ↔
      (∃ q ∈ acc, q.pid = x) ∨ ∃ q ∈ procs, q.pid = x := by
  induction procs generalizing acc with
  | nil => simp
  | cons p t ih =>
    rw [List.foldl_cons, ih, exists_pid_mapInsert]
    simp only [List.mem_cons]
    constructor
    · rintro ((hpx | hacc) | ht)
      · exact Or.inr ⟨p, Or.inl rfl, hpx⟩
      · exact Or.inl hacc
      · rcases ht with ⟨q, hq, hx⟩
        exact Or.inr ⟨q, Or.inr hq, hx⟩
    · rintro (hacc | ⟨q, rfl | hq, hx⟩)
      · exact Or.inl (Or.inr hacc)
      · exact Or.inl (Or.inl hx)
      · exact Or.inr ⟨q, hq, hx⟩

theorem find?_pid_of_mem (m : List ProcSnapshot) (p : ProcSnapshot)
    (hnd : (m.map ProcSnapshot.pid).Nodup) (hp : p ∈ m) :
    m.find? (fun q => q.pid == p.pid) = some p := by
  induction m with
  | nil => cases hp
  | cons a t ih =>
    rw [List.map_cons, List.nodup_cons] at hnd
    rcases List.mem_cons.mp hp with rfl | hpt
    · exact List.find?_cons_of_pos _ (by simp)
    · have hane : a.pid ≠ p.pid := fun h => by
        exact hnd.1 (h ▸ List.mem_map_of_mem ProcSnapshot.pid hpt)
      rw [List.find?_cons_of_neg _ (by simp [hane])]
      exact ih hnd.2 hpt

/-- C3: for a process sampled in the current tick, the computed CPU
percentage is `0` when its pid is absent from the previous mapping
(the first tick after it appears); when a previous record with the same
pid exists in the (pid-unique) mapping, the percentage is
`100 * proc_diff / tot_diff` when `tot_diff > 0` and `0` otherwise,
where `proc_diff` is the difference of the `utime+stime` totals when
the current total is at least the previous one, and `0` otherwise. -/
theorem procCpu_formula (prevMap : List ProcSnapshot) (totDiff : Nat)
    (cur : ProcSnapshot)
    (hnd : (prevMap.map ProcSnapshot.pid).Nodup) :
    ((∀ p ∈ prevMap, p.pid ≠ cur.pid) →
      computeCpuPct prevMap totDiff cur = 0) ∧
    (∀ p ∈ prevMap, p.pid = cur.pid →
      (p.total_time ≤ cur.total_time →
        computeCpuPct prevMap totDiff cur =
          if 0 < totDiff then
            100 * ((cur.total_time - p.total_time : Nat) : ℚ) /
              ((totDiff : Nat) : ℚ)
          else 0) ∧
      (cur.total_time < p.total_time →
        computeCpuPct prevMap totDiff cur = 0)) := by
  constructor
  · intro habs
    have hnone : prevMap.find? (fun q => q.pid == cur.pid) = none := by
      rw [List.find?_eq_none]
      intro q hq
      simp [habs q hq]
    simp [computeCpuPct, hnone]
  · intro p hp hpid
    have hsome : prevMap.find? (fun q => q.pid == cur.pid) = some p := by
      rw [← hpid]
      exact find?_pid_of_mem prevMap p hnd hp
    constructor
    · intro hle
      simp [computeCpuPct, hsome, hle]
    · intro hlt
      have hnle : ¬ p.total_time ≤ cur.total_time := by omega
      simp [computeCpuPct, hsome, hnle]

/-- Scenario B previous record for pid 42: `utime = 10`, `stime = 5`. -/
def procPrevB : ProcSnapshot :=
  { pid := 42, user := "u", cmd := [], utime := 10, stime := 5,
    rss := 50000, cpu_percent := 0, mem_percent := 0 }

/-- Scenario B current record for pid 42: `utime = 20`, `stime = 15`. -/
def procCurB : ProcSnapshot :=
  { pid := 42, user := "u", cmd := [], utime := 20, stime := 15,
    rss := 50000, cpu_percent := 0, mem_percent := 0 }

/-- C3 witness: scenario B of the spec, `tot_diff = 1000`, jiffy delta
`20`, giving `cpu_percent = 2`. -/
theorem procCpu_formula_witness :
    computeCpuPct [procPrevB] 1000 procCurB = 2 := by
  have h :=
    ((procCpu_formula [procPrevB] 1000 procCurB (by decide)).2 procPrevB
        (List.mem_singleton.mpr rfl) rfl).1 (by decide)
  rw [h]
  norm_num [ProcSnapshot.total_time, procPrevB, procCurB]

/-- C4: after a tick, the new previous mapping contains exactly the
pids sampled on that tick; and any pid occurring among the first `k`
rendered rows (a prefix of some permutation of the derived rows, which
is how the sorted table is drawn) was sampled on that tick, so a pid
absent from the current sample is in neither. -/
theorem prevMap_exactly_current (procs : List ProcSnapshot) (x : Nat) :
    ((∃ q ∈ updatePrevMap procs, q.pid = x) ↔ ∃ q ∈ procs, q.pid = x) ∧
    (∀ rows k, procs.Perm rows → (∃ q ∈ rows.take k, q.pid = x) →
      ∃ q ∈ procs, q.pid = x) := by
  constructor
  · unfold updatePrevMap
    rw [exists_pid_foldl_mapInsert]
    simp
  · rintro rows k hperm ⟨q, hq, hx⟩
    exact ⟨q, hperm.mem_iff.mpr (List.take_subset k rows hq), hx⟩

/-- C4 witness: the reconciliation instantiated on a one-element
sample. -/
theorem prevMap_exactly_current_witness :
    ∃ q ∈ updatePrevMap [procCurB], q.pid = 42 :=
  (prevMap_exactly_current [procCurB] 42).1.mpr
    ⟨procCurB, List.mem_singleton.mpr rfl, rfl⟩

/-- The CPU-mode comparator passed to `sort` (lines 286-289 of the
source): `a` precedes `b` when `a.cpu_percent > b.cpu_percent`, with
`a.mem_percent > b.mem_percent` deciding exact `cpu_percent` ties.  No
further key is consulted. -/
def cmpCpu (a b : ProcSnapshot) : Bool :=
  if a.cpu_percent = b.cpu_percent then decide (b.mem_percent < a.mem_percent)
  else decide (b.cpu_percent < a.cpu_percent)

/-- The MEM-mode comparator (lines 291-294), with the two keys
swapped. -/
def cmpMem (a b : ProcSnapshot) : Bool :=
  if a.mem_percent = b.mem_percent then decide (b.cpu_percent < a.cpu_percent)
  else decide (b.mem_percent < a.mem_percent)

/-- The postcondition of `std::sort(procs.begin(), procs.end(), cmp)`:
the output is a permutation of the input in which no earlier element
compares strictly after a later one.  `std::sort` is not stable and
promises nothing more about elements the comparator cannot
distinguish. -/
def IsValidSortOutput (cmp : ProcSnapshot → ProcSnapshot → Bool)
    (l out : List ProcSnapshot) : Prop :=
  l.Perm out ∧ out.Pairwise (fun a b => cmp b a = false)

/-- The ranking asserted by the spec for CPU mode: `cpu_percent`
descending, then `mem_percent` descending, then pid ascending. -/
def claimedLeCpu (a b : ProcSnapshot) : Bool :=
  decide (b.cpu_percent < a.cpu_percent) ||
    (decide (a.cpu_percent = b.cpu_percent) &&
      (decide (b.mem_percent < a.mem_percent) ||
        (decide (a.mem_percent = b.mem_percent) && decide (a.pid ≤ b.pid))))

/-- The two-key order the comparator actually enforces in CPU mode. -/
def TwoKeyLeCpu (a b : ProcSnapshot) : Prop :=
  b.cpu_percent < a.cpu_percent ∨
    (a.cpu_percent = b.cpu_percent ∧ b.mem_percent ≤ a.mem_percent)

/-- The two-key order the comparator actually enforces in MEM mode. -/
def TwoKeyLeMem (a b : ProcSnapshot) : Prop :=
  b.mem_percent < a.mem_percent ∨
    (a.mem_percent = b.mem_percent ∧ b.cpu_percent ≤ a.cpu_percent)

/-- Row with pid 9 of the tie-break scenario: `cpu_percent = 4`,
`mem_percent = 2`. -/
def rowPid9 : ProcSnapshot :=
  { pid := 9, user := "u", cmd := [], utime := 0, stime := 0, rss := 0,
    cpu_percent := 4, mem_percent := 2 }

/-- Row with pid 100 of the tie-break scenario: the same `cpu_percent`
and `mem_percent` as `rowPid9`. -/
def rowPid100 : ProcSnapshot :=
  { pid := 100, user := "u", cmd := [], utime := 0, stime := 0, rss := 0,
    cpu_percent := 4, mem_percent := 2 }

/-- C5 counterexample: on two rows tied in both `cpu_percent` and
`mem_percent`, the order with the larger pid first satisfies the
comparator-based postcondition of the source's sort, yet violates the
claimed pid-ascending final tie-break — the comparator never consults
the pid, so the claimed ranking is not what the code establishes. -/
theorem sort_pid_tiebreak_cex :
    IsValidSortOutput cmpCpu [rowPid9, rowPid100] [rowPid100, rowPid9] ∧
      ¬ List.Pairwise (fun a b => claimedLeCpu a b = true)
        [rowPid100, rowPid9] := by
  constructor
  · exact ⟨List.Perm.swap rowPid100 rowPid9 [], by decide⟩
  · decide

theorem cmpCpu_false_twoKey {a b : ProcSnapshot}
    (h : cmpCpu b a = false) : TwoKeyLeCpu a b := by
  unfold cmpCpu at h
  by_cases hc : b.cpu_percent = a.cpu_percent
  · rw [if_pos hc] at h
    exact Or.inr ⟨hc.symm, not_lt.mp (of_decide_eq_false h)⟩
  · rw [if_neg hc] at h
    exact Or.inl (lt_of_le_of_ne (not_lt.mp (of_decide_eq_false h)) hc)

theorem cmpMem_false_twoKey {a b : ProcSnapshot}
    (h : cmpMem b a = false) : TwoKeyLeMem a b := by
  unfold cmpMem at h
  by_cases hc : b.mem_percent = a.mem_percent
  · rw [if_pos hc] at h
    exact Or.inr ⟨hc.symm, not_lt.mp (of_decide_eq_false h)⟩
  · rw [if_neg hc] at h
    exact Or.inl (lt_of_le_of_ne (not_lt.mp (of_decide_eq_false h)) hc)

/-- C5 as amended: any output of the source's sort is a permutation of
the rows ordered by `cpu_percent` descending with `mem_percent`
descending on ties (symmetrically in MEM mode); the relative order of
rows tied in both keys is unspecified, since the comparator never
consults the pid.  A sorted output is again a valid output of
re-running the sort on itself. -/
theorem sort_two_key_order :
    (∀ l out, IsValidSortOutput cmpCpu l out →
      out.Pairwise TwoKeyLeCpu ∧ IsValidSortOutput cmpCpu out out) ∧
    (∀ l out, IsValidSortOutput cmpMem l out →
      out.Pairwise TwoKeyLeMem ∧ IsValidSortOutput cmpMem out out) := by
  constructor
  · rintro l out ⟨hperm, hpw⟩
    exact ⟨hpw.imp cmpCpu_false_twoKey, List.Perm.refl out, hpw⟩
  · rintro l out ⟨hperm, hpw⟩
    exact ⟨hpw.imp cmpMem_false_twoKey, List.Perm.refl out, hpw⟩

/-- C5 witness: the amended ordering instantiated on the two tied
rows. -/
theorem sort_two_key_order_witness :
    List.Pairwise TwoKeyLeCpu [rowPid100, rowPid9] ∧
      IsValidSortOutput cmpCpu [rowPid100, rowPid9] [rowPid100, rowPid9] :=
  sort_two_key_order.1 [rowPid9, rowPid100] [rowPid100, rowPid9]
    ⟨List.Perm.swap rowPid100 rowPid9 [], by decide⟩

/-- Lines 248-250 of the source: `mem_used` is `mem_total -
mem_available` when `mem_total > mem_available`, and `mem_total -
mem_free` otherwise, both as unsigned 64-bit subtractions. -/
def memUsed (total available free : Nat) : Nat :=
  if available < total then sub64 total available else sub64 total free

/-- The per-tick memory derivation (lines 231-250): `mem_available` and
`mem_free` start at `0` and keep that value when the corresponding
`/proc/meminfo` line is missing or not parsed; `none` models a missing
line. -/
def memUsedTick (total : Nat) (availLine freeLine : Option Nat) : Nat :=
  memUsed total (availLine.getD 0) (freeLine.getD 0)

/-- C6 counterexample: with `MemTotal = 1000` kB cached, no
`MemAvailable` line and `MemFree = 300` kB, the tick displays
`used = 1000` (total minus the zero default), not `total - free =
700` as the claim states. -/
theorem memUsed_missing_available_cex :
    memUsedTick 1000 none (some 300) = 1000 ∧ (1000 : Nat) ≠ 1000 - 300 := by
  decide

/-- C6 as amended: the code selects the branch on `total >
available`, not on whether `MemAvailable` parsed: `used = total -
available` when `available < total`, `used = total - free` otherwise;
in particular a missing `MemAvailable` line reads as `0`, so any
positive total yields `used = total`. -/
theorem memUsed_guard_formula (total avail free : Nat)
    (ht : total < U64) :
    (avail < total → memUsed total avail free = total - avail) ∧
    (total ≤ avail → free ≤ total → memUsed total avail free = total - free) ∧
    (0 < total → memUsedTick total none (some free) = total) := by
  refine ⟨?_, ?_, ?_⟩
  · intro h
    simp [memUsed, h, sub64_eq_sub (le_of_lt h) ht]
  · intro h1 h2
    simp [memUsed, not_lt.mpr h1, sub64_eq_sub h2 ht]
  · intro h
    have h0 : sub64 total 0 = total - 0 := sub64_eq_sub (Nat.zero_le total) ht
    simp only [memUsedTick, Option.getD_none, Option.getD_some, memUsed, h,
      if_true, h0, Nat.sub_zero]

/-- C6 witness: both branches of the amended derivation on concrete
values. -/
theorem memUsed_guard_formula_witness :
    memUsed 1000 700 300 = 1000 - 700 ∧
      memUsedTick 1000 none (some 300) = 1000 :=
  ⟨(memUsed_guard_formula 1000 700 300 (by decide)).1 (by decide),
    (memUsed_guard_formula 1000 700 300 (by decide)).2.2 (by decide)⟩

/-- C10: the used-memory subtraction has no underflow guard on the
`free` branch: when the cached total is at most the parsed available
value while `free` exceeds the total, the displayed value is
`(total - free) mod 2^64 = 2^64 - (free - total)`, near `2^64`. -/
theorem memUsed_underflow_wrap (total avail free : Nat) (ht : total < U64)
    (hf : free < U64) (hta : total ≤ avail) (htf : total < free) :
    memUsed total avail free = (U64 + total - free) % U64 ∧
      memUsed total avail free = U64 - (free - total) := by
  have hbranch : memUsed total avail free = sub64 total free := by
    simp [memUsed, not_lt.mpr hta]
  rw [hbranch]
  unfold sub64 U64 at *
  omega

/-- C10 witness: `MemTotal` parsed as `0`, `MemFree = 5` kB: the
display shows `2^64 - 5` kB. -/
theorem memUsed_underflow_wrap_witness :
    memUsed 0 0 5 = U64 - (5 - 0) :=
  (memUsed_underflow_wrap 0 0 5 (by decide) (by decide) (by decide)
    (by decide)).2

/-- The C conversion `(size_t)i` of a (possibly negative) `int` value:
reduction modulo `2 ^ 64` of its two's-complement value. -/
def castSizeT (i : Int) : Nat := (i % (U64 : Int)).toNat

/-- Lines 306-312 of the source: the row loop runs while
`i < procs.size() && i < (size_t)max_rows` with `max_rows = LINES - 5`
(an `int`), so the number of process rows printed is the minimum of
the process count and the unsigned conversion of `LINES - 5`. -/
def renderedRowCount (numProcs : Nat) (lines : Int) : Nat :=
  min numProcs (castSizeT (lines - 5))

/-- C7: on a 4-line terminal (`max_rows = -1`) with 3 sampled
processes, the signed-to-unsigned conversion makes the bound
`2^64 - 1`, so all 3 rows are printed where the claim requires zero;
with exactly 5 lines the bound is `0`, and on a 24-line terminal the
usual `LINES - 5 = 19` cap applies. -/
theorem renderRows_negative_maxrows :
    renderedRowCount 3 4 = 3 ∧ renderedRowCount 3 5 = 0 ∧
      renderedRowCount 100 24 = 19 := by
  decide

/-- Whitespace tokenization of a line as performed by repeated
`ss >> token` on a `std::stringstream` (runs of spaces separate
tokens, empty tokens do not occur). -/
def wsTokens (l : List Char) : List (List Char) :=
  (l.splitOnP (fun c => c == ' ')).filter (fun t => !t.isEmpty)

/-- `stoull`/`stol` on a token of decimal digits.  `none` models the
exception the C functions throw on a token with no leading digits,
which nothing in the program catches (the process aborts); sign marks
and trailing junk do not occur in the inputs considered. -/
def digitsVal? (t : List Char) : Option Nat :=
  if !t.isEmpty && t.all Char.isDigit then
    some (t.foldl (fun n c => 10 * n + (c.toNat - 48)) 0)
  else none

/-- Lines 119-137 of the source: the whole `/proc/<pid>/stat` line is
tokenized on whitespace; when at least 24 tokens result, tokens 14, 15
and 24 (1-based) are parsed as `utime`, `stime` and the raw page count
`rss`; otherwise the zero-initialized values of `ProcSnapshot p{}` are
kept, which is modeled by `some (0, 0, 0)`. -/
def readStatTriple (content : List Char) : Option (Nat × Nat × Nat) :=
  let fields := wsTokens content
  if 24 ≤ fields.length then
    match digitsVal? (fields.getD 13 []), digitsVal? (fields.getD 14 []),
        digitsVal? (fields.getD 23 []) with
    | some u, some s, some r => some (u, s, r)
    | _, _, _ => none
  else some (0, 0, 0)

/-- The robust stat parse the spec demands (§4.2), stated from the
spec's words for comparison with `readStatTriple`: locate the last
`)` of the line, tokenize only the tail after it as fields 3..N, and
take fields 14 (`utime`), 15 (`stime`) and 24 (`rss`). -/
def specStatFields (content : List Char) : Option (Nat × Nat × Nat) :=
  let segs := content.splitOnP (fun c => c == ')')
  if 2 ≤ segs.length then
    let toks := wsTokens (segs.getLastD [])
    match digitsVal? (toks.getD 11 []), digitsVal? (toks.getD 12 []),
        digitsVal? (toks.getD 21 []) with
    | some u, some s, some r => some (u, s, r)
    | _, _, _ => none
  else none

/-- A `/proc/<pid>/stat` line whose command contains a space and a
close-paren: the true field values are `utime = 50`, `stime = 60`,
`rss = 7` pages. -/
def weirdStatLine : List Char :=
  ("1234 (weird ) name) S 1 2 3 4 5 6 7 8 9 10 50 60 11 12 20 0 1 0 99 4096 7").data

/-- C2: on a stat line whose parenthesized command contains a space
and a close-paren, the source's naive whitespace tokenization shifts
every index: it returns `utime = 9`, `stime = 10`, `rss = 99` where the
last-`)` rule mandated by the spec recovers the true `utime = 50`,
`stime = 60`, `rss = 7`. -/
theorem statParse_divergence :
    readStatTriple weirdStatLine = some (9, 10, 99) ∧
      specStatFields weirdStatLine = some (50, 60, 7) ∧
      readStatTriple weirdStatLine ≠ specStatFields weirdStatLine := by
  decide

/-- Lines 99-116 of the source: `getline(fcmd, cmd, '\0')` reads the
characters before the first NUL of `/proc/<pid>/cmdline`; when that is
empty, the short name is read from `/proc/<pid>/comm` (up to the
newline); the final loop replacing NUL by a space then runs (no NUL
can survive the delimited reads, so it never fires). -/
def parseCmdline (cmdline comm : List Char) : List Char :=
  let cmd := cmdline.takeWhile (fun c => c != '\x00')
  let cmd := if cmd.isEmpty then comm.takeWhile (fun c => c != '\n') else cmd
  cmd.map (fun c => if c = '\x00' then ' ' else c)

/-- `read_proc` (lines 93-154 of the source) on the contents of the
three pseudo-files it reads.  `pageSizeKb` models
`sysconf(_SC_PAGESIZE) / 1024`; the resolved owner name (from
`/proc/<pid>/status` and `getpwuid`) is passed in resolved, since no
claim concerns it.  A `none` result models the program aborting on an
uncaught `stoull`/`stol` exception. -/
def read_proc (pageSizeKb pid : Nat) (cmdline comm stat : List Char)
    (user : String) : Option ProcSnapshot :=
  match readStatTriple stat with
  | none => none
  | some (u, s, r) =>
    some { pid := pid, user := user, cmd := parseCmdline cmdline comm,
           utime := u, stime := s, rss := r * pageSizeKb,
           cpu_percent := 0, mem_percent := 0 }

theorem pid_in_new_map (prevMap : List ProcSnapshot)
    (totDiff memTotal : Nat) (cur : List ProcSnapshot) (p : ProcSnapshot)
    (hp : p ∈ cur) :
    ∃ q ∈ updatePrevMap (deriveRows prevMap totDiff memTotal cur),
      q.pid = p.pid := by
  unfold updatePrevMap
  rw [exists_pid_foldl_mapInsert]
  exact Or.inr ⟨_, List.mem_map_of_mem _ hp, rfl⟩

/-- A truncated `/proc/<pid>/stat` line with only 3 tokens. -/
def shortStatLine : List Char := ("7 (x) S").data

/-- C8 counterexample: for a process whose stat line is truncated to 3
tokens, `read_proc` does not fail — it returns a record with
`utime = stime = rss = 0` — and the process still enters the tick's
rows and the new previous mapping, contradicting the claimed skip. -/
theorem shortStat_not_skipped_cex :
    read_proc 4 7 ("x").data ("x").data shortStatLine "root" =
      some { pid := 7, user := "root", cmd := ("x").data, utime := 0,
             stime := 0, rss := 0, cpu_percent := 0, mem_percent := 0 } ∧
      ∃ q ∈ updatePrevMap (deriveRows [] 1000 1000
          [{ pid := 7, user := "root", cmd := ("x").data, utime := 0,
             stime := 0, rss := 0, cpu_percent := 0, mem_percent := 0 }]),
        q.pid = 7 := by
  constructor
  · decide
  · decide

/-- C8 as amended: a stat line with fewer than 24 whitespace tokens
does not cause the process to be skipped: the parser keeps the
zero-initialized `utime`, `stime` and `rss`, and the process still
appears among the tick's derived rows and in the new previous mapping
(only an unparseable numeric token among the first 24 aborts the
program instead). -/
theorem shortStat_zero_fields (pageSizeKb pid : Nat)
    (cmdline comm stat : List Char) (user : String)
    (h : (wsTokens stat).length < 24) :
    read_proc pageSizeKb pid cmdline comm stat user =
      some { pid := pid, user := user, cmd := parseCmdline cmdline comm,
             utime := 0, stime := 0, rss := 0, cpu_percent := 0,
             mem_percent := 0 } ∧
    ∀ prevMap totDiff memTotal,
      ∃ q ∈ updatePrevMap (deriveRows prevMap totDiff memTotal
          [{ pid := pid, user := user, cmd := parseCmdline cmdline comm,
             utime := 0, stime := 0, rss := 0, cpu_percent := 0,
             mem_percent := 0 }]), q.pid = pid := by
  have hstat : readStatTriple stat = some (0, 0, 0) := by
    unfold readStatTriple
    rw [if_neg (by omega)]
  constructor
  · unfold read_proc
    rw [hstat]
    simp
  · intro prevMap totDiff memTotal
    exact pid_in_new_map prevMap totDiff memTotal _ _
      (List.mem_singleton.mpr rfl)

/-- C8 witness: the amended behavior on the concrete truncated line. -/
theorem shortStat_zero_fields_witness :
    read_proc 4 7 ("x").data ("x").data shortStatLine "root" =
      some { pid := 7, user := "root",
             cmd := parseCmdline ("x").data ("x").data, utime := 0,
             stime := 0, rss := 0, cpu_percent := 0, mem_percent := 0 } :=
  (shortStat_zero_fields 4 7 ("x").data ("x").data shortStatLine "root"
    (by decide)).1

/-- C9 counterexample: on the two-argument command line `a\0b\0` the
source's parse yields only the first argument `a`, not the
space-joined `a b` the claim states. -/
theorem cmdline_first_arg_cex :
    parseCmdline ("a\x00b\x00").data ("c").data = ("a").data ∧
      ("a").data ≠ ("a b").data := by
  decide

theorem takeWhile_until_nul (a rest : List Char) (ha : '\x00' ∉ a) :
    (a ++ '\x00' :: rest).takeWhile (fun c => c != '\x00') = a := by
  induction a with
  | nil => simp [List.takeWhile_cons]
  | cons c t ih =>
    have hc : c ≠ '\x00' := by
      intro hcc
      exact ha (by simp [hcc])
    have ht : '\x00' ∉ t := fun hm => ha (List.mem_cons_of_mem c hm)
    simp [List.takeWhile_cons, hc, ih ht]

theorem map_nul_space_id (a : List Char) (ha : '\x00' ∉ a) :
    a.map (fun c => if c = '\x00' then ' ' else c) = a := by
  induction a with
  | nil => rfl
  | cons c t ih =>
    have hc : c ≠ '\x00' := by
      intro hcc
      exact ha (by simp [hcc])
    have ht : '\x00' ∉ t := fun hm => ha (List.mem_cons_of_mem c hm)
    simp [hc, ih ht]

theorem mem_takeWhile_mem {p : Char → Bool} {l : List Char} {c : Char}
    (h : c ∈ l.takeWhile p) : c ∈ l := by
  induction l with
  | nil => simp at h
  | cons a t ih =>
    rw [List.takeWhile_cons] at h
    by_cases hpa : p a
    · rw [if_pos hpa] at h
      rcases List.mem_cons.mp h with rfl | h2
      · exact List.mem_cons_self _ _
      · exact List.mem_cons_of_mem a (ih h2)
    · rw [if_neg hpa] at h
      cases h

/-- C9 as amended: the parsed command is the first NUL-separated
argument only — for content `a ++ NUL ++ rest` with `a` nonempty and
NUL-free the result is exactly `a`, every later argument being
discarded — and for empty content the comm name (up to its newline) is
used; in both cases no trailing space is introduced. -/
theorem cmdline_first_arg (a rest comm : List Char) (ha : '\x00' ∉ a)
    (hne : a ≠ []) :
    parseCmdline (a ++ '\x00' :: rest) comm = a ∧
      ('\x00' ∉ comm →
        parseCmdline [] comm = comm.takeWhile (fun c => c != '\n')) := by
  constructor
  · unfold parseCmdline
    rw [takeWhile_until_nul a rest ha]
    have hae : a.isEmpty = false := by
      cases a with
      | nil => exact absurd rfl hne
      | cons x xs => rfl
    simp only [hae, Bool.false_eq_true, if_false]
    exact map_nul_space_id a ha
  · intro hcomm
    unfold parseCmdline
    simp only [List.takeWhile_nil, List.isEmpty_nil, if_true]
    exact map_nul_space_id _ (fun hm => hcomm (mem_takeWhile_mem hm))

/-- C9 witness: the amended first-argument behavior on `a\0b\0` with
comm `c`. -/
theorem cmdline_first_arg_witness :
    parseCmdline (("a").data ++ '\x00' :: ("b\x00").data) ("c").data =
      ("a").data :=
  (cmdline_first_arg ("a").data ("b\x00").data ("c").data (by decide)
    (by decide)).1
